import Mathlib

/-!
Verification of the mapping and derivative-assembly layer of `SplineComp`
(`openmdao/components/spline_comp.py`).

The development shallowly embeds the relevant pieces of the Python source:

* the index-array construction in `SplineComp.setup` (numpy `repeat`, `tile`,
  `arange` and elementwise addition) that declares the sparsity pattern of the
  Jacobian block for each `(y_interp_name, y_cp_name)` pair;
* the grid resolution in `SplineComp.setup` (options `x_cp_val` / `num_cp` /
  `method`) including its three error branches;
* the normalization of the default control-point values (`y_cp_val`) in
  `SplineComp.setup`, numpy `reshape` included;
* the error wrapping in `SplineComp.compute`;
* the derivative assembly in `SplineComp.compute_partials`, with numpy
  broadcasting of the engine-supplied derivative data modelled explicitly.

Arrays are modelled as (nested) lists; numpy machine floats carry no arithmetic
in this layer (values are only moved, replicated and reshaped), so array
element types are kept generic.
-/

/-- numpy `np.repeat(xs, n)`: each element of `xs` repeated `n` times. -/
def npRepeat (xs : List Nat) (n : Nat) : List Nat :=
  (xs.map (List.replicate n)).flatten

/-- numpy `np.tile(xs, n)`: the whole list `xs` repeated `n` times. -/
def npTile (xs : List Nat) (n : Nat) : List Nat :=
  (List.replicate n xs).flatten

/-- `row = np.repeat(np.arange(n_interp), n_cp)` (spline_comp.py line 136). -/
def rowBase (n_interp n_cp : Nat) : List Nat :=
  npRepeat (List.range n_interp) n_cp

/-- `col = np.tile(np.arange(n_cp), n_interp)` (spline_comp.py line 137). -/
def colBase (n_interp n_cp : Nat) : List Nat :=
  npTile (List.range n_cp) n_interp

/-- `rows = np.tile(row, vec_size) + np.repeat(n_interp * np.arange(vec_size),
n_interp * n_cp)` (spline_comp.py line 138). -/
def rowsArr (vec_size n_interp n_cp : Nat) : List Nat :=
  List.zipWith (· + ·) (npTile (rowBase n_interp n_cp) vec_size)
    (npRepeat ((List.range vec_size).map (fun b => n_interp * b)) (n_interp * n_cp))

/-- `cols = np.tile(col, vec_size) + np.repeat(n_cp * np.arange(vec_size),
n_interp * n_cp)` (spline_comp.py line 139). -/
def colsArr (vec_size n_interp n_cp : Nat) : List Nat :=
  List.zipWith (· + ·) (npTile (colBase n_interp n_cp) vec_size)
    (npRepeat ((List.range vec_size).map (fun b => n_cp * b)) (n_interp * n_cp))

theorem npRepeat_range (m n : Nat) :
    npRepeat (List.range m) n = (List.range (m * n)).map (fun i => i / n) := by
  rcases Nat.eq_zero_or_pos n with hn | hn
  · subst hn
    induction m with
    | zero => simp [npRepeat]
    | succ m ih =>
      rw [List.range_succ, npRepeat, List.map_append, List.flatten_append]
      rw [npRepeat] at ih
      simp [ih]
  · induction m with
    | zero => simp [npRepeat]
    | succ m ih =>
      rw [List.range_succ, npRepeat, List.map_append, List.flatten_append]
      rw [npRepeat] at ih
      rw [ih, Nat.succ_mul, List.range_add, List.map_append, List.map_map]
      congr 1
      simp only [List.flatten, List.append_nil]
      rw [show (List.replicate n m : List Nat) =
        (List.range n).map (Function.const Nat m) by
          rw [List.map_const, List.length_range]]
      refine List.map_congr_left ?_
      intro i hi
      rw [List.mem_range] at hi
      have hdiv : (m * n + i) / n = m := by
        rw [Nat.add_comm, Nat.add_mul_div_right _ _ hn, Nat.div_eq_of_lt hi]
        omega
      simp [Function.const, hdiv]

theorem npTile_range (m n : Nat) :
    npTile (List.range m) n = (List.range (n * m)).map (fun i => i % m) := by
  induction n with
  | zero => simp [npTile]
  | succ n ih =>
    rw [npTile, List.replicate_succ, List.flatten_cons]
    rw [npTile] at ih
    rw [ih, Nat.succ_mul, Nat.add_comm (n * m) m, List.range_add, List.map_append,
      List.map_map]
    congr 1
    · symm
      exact (List.map_congr_left (fun i hi => by
        rw [List.mem_range] at hi
        simp [Nat.mod_eq_of_lt hi])).trans (List.map_id _)
    · refine List.map_congr_left ?_
      intro i _
      simp [Nat.add_mul_mod_self_left]

theorem npRepeat_map (f : Nat → Nat) (xs : List Nat) (n : Nat) :
    npRepeat (xs.map f) n = (npRepeat xs n).map f := by
  rw [npRepeat, npRepeat, List.map_flatten, List.map_map, List.map_map]
  congr 1
  refine List.map_congr_left ?_
  intro x _
  simp [List.map_replicate]

theorem npTile_map (f : Nat → Nat) (xs : List Nat) (n : Nat) :
    npTile (xs.map f) n = (npTile xs n).map f := by
  rw [npTile, npTile, List.map_flatten, List.map_replicate]

theorem zipWith_map_same (g : Nat → Nat → Nat) (f₁ f₂ : Nat → Nat) (l : List Nat) :
    List.zipWith g (l.map f₁) (l.map f₂) = l.map (fun x => g (f₁ x) (f₂ x)) := by
  induction l with
  | nil => rfl
  | cons a l ih => simp [ih]

theorem rowsArr_eq (B n m : Nat) :
    rowsArr B n m =
      (List.range (B * (n * m))).map (fun i => i % (n * m) / m + n * (i / (n * m))) := by
  rw [rowsArr, rowBase, npRepeat_range, npTile_map, npTile_range, npRepeat_map,
    npRepeat_range, List.map_map, List.map_map, zipWith_map_same]
  rfl

theorem colsArr_eq (B n m : Nat) :
    colsArr B n m =
      (List.range (B * (n * m))).map (fun i => i % (n * m) % m + m * (i / (n * m))) := by
  rw [colsArr, colBase, npTile_range, npTile_map, npTile_range, npRepeat_map,
    npRepeat_range, List.map_map, List.map_map, zipWith_map_same]
  rfl

theorem getD_map_range (f : Nat → Nat) (N i : Nat) (h : i < N) :
    ((List.range N).map f).getD i 0 = f i := by
  have hlen : i < ((List.range N).map f).length := by simpa using h
  rw [List.getD_eq_getElem _ _ hlen, List.getElem_map, List.getElem_range]

theorem rowsArr_length (B n m : Nat) : (rowsArr B n m).length = B * n * m := by
  rw [rowsArr_eq, List.length_map, List.length_range, Nat.mul_assoc]

theorem colsArr_length (B n m : Nat) : (colsArr B n m).length = B * n * m := by
  rw [colsArr_eq, List.length_map, List.length_range, Nat.mul_assoc]

theorem block_index_lt (B n m b k j : Nat) (hb : b < B) (hk : k < n) (hj : j < m) :
    b * (n * m) + k * m + j < B * (n * m) := by
  have h1 : k * m + j < n * m := by
    calc k * m + j < k * m + m := by omega
    _ = (k + 1) * m := by ring
    _ ≤ n * m := Nat.mul_le_mul_right m hk
  calc b * (n * m) + k * m + j = b * (n * m) + (k * m + j) := by omega
  _ < b * (n * m) + n * m := by omega
  _ = (b + 1) * (n * m) := by ring
  _ ≤ B * (n * m) := Nat.mul_le_mul_right (n * m) hb

theorem rowsArr_getD (B n m b k j : Nat) (hb : b < B) (hk : k < n) (hj : j < m) :
    (rowsArr B n m).getD (b * (n * m) + k * m + j) 0 = b * n + k := by
  have hm : 0 < m := by omega
  have hnm : 0 < n * m := Nat.mul_pos (by omega) hm
  have hx : k * m + j < n * m := by
    calc k * m + j < (k + 1) * m := by rw [Nat.succ_mul]; omega
    _ ≤ n * m := Nat.mul_le_mul_right m hk
  rw [rowsArr_eq, getD_map_range _ _ _ (block_index_lt B n m b k j hb hk hj)]
  have hi : b * (n * m) + k * m + j = (n * m) * b + (k * m + j) := by ring
  rw [hi, Nat.mul_add_mod, Nat.mod_eq_of_lt hx, Nat.mul_add_div hnm,
    Nat.div_eq_of_lt hx]
  have hj' : k * m + j = m * k + j := by ring
  rw [hj', Nat.mul_add_div hm, Nat.div_eq_of_lt hj]
  ring

theorem colsArr_getD (B n m b k j : Nat) (hb : b < B) (hk : k < n) (hj : j < m) :
    (colsArr B n m).getD (b * (n * m) + k * m + j) 0 = b * m + j := by
  have hm : 0 < m := by omega
  have hnm : 0 < n * m := Nat.mul_pos (by omega) hm
  have hx : k * m + j < n * m := by
    calc k * m + j < (k + 1) * m := by rw [Nat.succ_mul]; omega
    _ ≤ n * m := Nat.mul_le_mul_right m hk
  rw [colsArr_eq, getD_map_range _ _ _ (block_index_lt B n m b k j hb hk hj)]
  have hi : b * (n * m) + k * m + j = (n * m) * b + (k * m + j) := by ring
  rw [hi, Nat.mul_add_mod, Nat.mod_eq_of_lt hx, Nat.mul_add_div hnm,
    Nat.div_eq_of_lt hx]
  have hj' : k * m + j = m * k + j := by ring
  rw [hj', Nat.mul_add_mod]
  rw [Nat.mod_eq_of_lt hj]
  ring

/-- C1: for all positive `B = vec_size`, `n = n_interp`, `m = n_cp`, the declared
sparsity arrays `rows` and `cols` each have length `B * n * m`, and the entry at
flat position `b * (n * m) + k * m + j` (batch `b`, output `k`, control point
`j`) has row index `b * n + k` and column index `b * m + j`: the dense per-batch
block replicated `B` times with row offset `b * n` and column offset `b * m`,
inner ordering row-major over `(k, j)`. -/
theorem C1_sparsity_pattern (B n m b k j : Nat) (hb : b < B) (hk : k < n) (hj : j < m) :
    (rowsArr B n m).length = B * n * m ∧
    (colsArr B n m).length = B * n * m ∧
    (rowsArr B n m).getD (b * (n * m) + k * m + j) 0 = b * n + k ∧
    (colsArr B n m).getD (b * (n * m) + k * m + j) 0 = b * m + j :=
  ⟨rowsArr_length B n m, colsArr_length B n m,
    rowsArr_getD B n m b k j hb hk hj, colsArr_getD B n m b k j hb hk hj⟩

theorem C1_sparsity_pattern_witness :
    (rowsArr 2 2 3).length = 2 * 2 * 3 ∧
    (colsArr 2 2 3).length = 2 * 2 * 3 ∧
    (rowsArr 2 2 3).getD (1 * (2 * 3) + 1 * 3 + 2) 0 = 1 * 2 + 1 ∧
    (colsArr 2 2 3).getD (1 * (2 * 3) + 1 * 3 + 2) 0 = 1 * 3 + 2 :=
  C1_sparsity_pattern 2 2 3 1 1 2 (by decide) (by decide) (by decide)

theorem rowsArr_getD_div (B n m i : Nat) (hn : 0 < n) (hm : 0 < m)
    (hi : i < B * n * m) :
    (rowsArr B n m).getD i 0 / n = i / (n * m) := by
  have hi' : i < B * (n * m) := by rw [← Nat.mul_assoc]; exact hi
  rw [rowsArr_eq, getD_map_range _ _ _ hi']
  have hlt : i % (n * m) / m < n := by
    rw [Nat.div_lt_iff_lt_mul hm]
    exact Nat.mod_lt i (Nat.mul_pos hn hm)
  rw [show i % (n * m) / m + n * (i / (n * m)) =
    i % (n * m) / m + i / (n * m) * n by ring,
    Nat.add_mul_div_right _ _ hn, Nat.div_eq_of_lt hlt]
  omega

theorem colsArr_getD_div (B n m i : Nat) (_hn : 0 < n) (hm : 0 < m)
    (hi : i < B * n * m) :
    (colsArr B n m).getD i 0 / m = i / (n * m) := by
  have hi' : i < B * (n * m) := by rw [← Nat.mul_assoc]; exact hi
  rw [colsArr_eq, getD_map_range _ _ _ hi']
  have hlt : i % (n * m) % m < m := Nat.mod_lt _ hm
  rw [show i % (n * m) % m + m * (i / (n * m)) =
    i % (n * m) % m + i / (n * m) * m by ring,
    Nat.add_mul_div_right _ _ hm, Nat.div_eq_of_lt hlt]
  omega

/-- C3: the declared pattern is block-diagonal by batch: every entry `i` of the
sparsity arrays has its row index inside the size-`n_interp` row block numbered
`i / (n_interp * n_cp)` and its column index inside the size-`n_cp` column
block of the same number, so no entry ever pairs a row index from one batch
block with a column index from a different batch block. -/
theorem C3_block_diagonal (B n m i : Nat) (hn : 0 < n) (hm : 0 < m)
    (hi : i < B * n * m) :
    (rowsArr B n m).getD i 0 / n = i / (n * m) ∧
    (colsArr B n m).getD i 0 / m = i / (n * m) ∧
    (rowsArr B n m).getD i 0 / n = (colsArr B n m).getD i 0 / m := by
  refine ⟨rowsArr_getD_div B n m i hn hm hi, colsArr_getD_div B n m i hn hm hi, ?_⟩
  rw [rowsArr_getD_div B n m i hn hm hi, colsArr_getD_div B n m i hn hm hi]

theorem C3_block_diagonal_witness :
    (rowsArr 2 2 3).getD 7 0 / 2 = 7 / (2 * 3) ∧
    (colsArr 2 2 3).getD 7 0 / 3 = 7 / (2 * 3) ∧
    (rowsArr 2 2 3).getD 7 0 / 2 = (colsArr 2 2 3).getD 7 0 / 3 :=
  C3_block_diagonal 2 2 3 7 (by decide) (by decide) (by decide)

/-- `ALL_METHODS` from spline_comp.py lines 9-10: the full value set accepted by
the `method` option declaration. -/
def ALL_METHODS : List String :=
  ["cubic", "slinear", "lagrange2", "lagrange3", "akima", "bsplines"]

/-- Python `s.startswith(p)`. -/
def pyStartswith (s p : String) : Bool :=
  p.data.isPrefixOf s.data

/-- The condition guarding the finite-difference check override at
spline_comp.py lines 152-153: `self.options["method"].startswith("scipy")`.
`set_check_partial_options` is called iff this holds. -/
def setupSetsFdCheck (method : String) : Bool :=
  pyStartswith method "scipy"

/-- The three `ValueError` branches of grid resolution in `SplineComp.setup`
(spline_comp.py lines 93-112). -/
inductive GridError where
  | xCpValNotValidForBsplines
  | bothXCpValAndNumCp
  | neitherXCpValNorNumCp
deriving DecidableEq

/-- The option names quoted in the message text of each grid `ValueError`
(spline_comp.py lines 96-97, 101, 111). -/
def GridError.optionsNamed : GridError → List String
  | .xCpValNotValidForBsplines => ["x_cp_val", "num_cp"]
  | .bothXCpValAndNumCp => ["x_cp_val", "num_cp"]
  | .neitherXCpValNorNumCp => ["x_cp_val", "num_cp"]

/-- Grid resolution from `SplineComp.setup` (spline_comp.py lines 88-112):
checks on `x_cp_val` / `num_cp` / `method` in source order, producing the grid
and the control-point count `n_cp`, or the `ValueError` the source raises.
`np.arange(n_cp)` is the cast integer sequence `0, 1, ..., n_cp - 1`. -/
def resolveGrid {α : Type} [NatCast α] (method : String)
    (x_cp_val : Option (List α)) (num_cp : Option Nat) :
    Except GridError (List α × Nat) :=
  match x_cp_val with
  | some xs =>
    if method = "bsplines" then .error .xCpValNotValidForBsplines
    else
      match num_cp with
      | some _ => .error .bothXCpValAndNumCp
      | none => .ok (xs, xs.length)
  | none =>
    match num_cp with
    | some n => .ok ((List.range n).map (fun i => (i : α)), n)
    | none => .error .neitherXCpValNorNumCp

/-- C2: grid resolution succeeds iff exactly one of `x_cp_val` and `num_cp` is
set and, when `x_cp_val` is set, the method is not `bsplines`; in each of the
three forbidden combinations it deterministically returns the specific
`ValueError` of the source, and every such error names both offending option
names in its message. -/
theorem C2_grid_config_errors (method : String) (x : Option (List Int))
    (ncp : Option Nat) :
    ((∃ g, resolveGrid method x ncp = .ok g) ↔
      (((∃ xs, x = some xs) ∧ ncp = none ∧ method ≠ "bsplines") ∨
        (x = none ∧ ∃ k, ncp = some k))) ∧
    (∀ xs, x = some xs → method = "bsplines" →
      resolveGrid method x ncp = .error .xCpValNotValidForBsplines) ∧
    (∀ xs k, x = some xs → ncp = some k → method ≠ "bsplines" →
      resolveGrid method x ncp = .error .bothXCpValAndNumCp) ∧
    (x = none → ncp = none →
      resolveGrid method x ncp = .error .neitherXCpValNorNumCp) ∧
    (∀ e, resolveGrid method x ncp = .error e →
      "x_cp_val" ∈ e.optionsNamed ∧ "num_cp" ∈ e.optionsNamed) := by
  by_cases hm : method = "bsplines" <;>
    cases x <;> cases ncp <;>
      simp [resolveGrid, hm, GridError.optionsNamed]

theorem C2_grid_config_errors_witness :
    resolveGrid (α := Int) "bsplines" (some [3]) none =
      .error .xCpValNotValidForBsplines :=
  (C2_grid_config_errors "bsplines" (some [3]) none).2.1 [3] rfl rfl

/-- C7: in each valid configuration the resolved grid is a pure function of the
options: explicit positions (non-bsplines, count unset) give back exactly those
positions with `n_cp` their length, and a count alone gives the integer grid
`0, 1, ..., count - 1` with `n_cp` the count (for any method). -/
theorem C7_grid_pure_function (method : String) (xs : List Int) (k : Nat) :
    (method ≠ "bsplines" →
      resolveGrid method (some xs) none = .ok (xs, xs.length)) ∧
    resolveGrid (α := Int) method none (some k) =
      .ok ((List.range k).map (fun i => (i : Int)), k) := by
  constructor
  · intro hm
    simp [resolveGrid, hm]
  · rfl

theorem C7_grid_pure_function_witness :
    resolveGrid "akima" (some [(2 : Int), 5]) none = .ok ([(2 : Int), 5], 2) ∧
    resolveGrid (α := Int) "akima" none (some 3) =
      .ok ([(0 : Int), 1, 2], 3) := by
  refine ⟨(C7_grid_pure_function "akima" [(2 : Int), 5] 3).1 (by decide), ?_⟩
  have h := (C7_grid_pure_function "akima" [(2 : Int), 5] 3).2
  rw [h]
  rfl

/-- C10: no member of the `method` option's accepted value set starts with
`scipy`, so the finite-difference check-partial override branch in `setup` is
unreachable: `set_check_partial_options` is never called in a valid
configuration. -/
theorem C10_fd_branch_unreachable (method : String) (h : method ∈ ALL_METHODS) :
    setupSetsFdCheck method = false := by
  fin_cases h <;> rfl

theorem C10_fd_branch_unreachable_witness :
    setupSetsFdCheck "akima" = false :=
  C10_fd_branch_unreachable "akima" (by decide)

/-- Fuel-driven splitting of a flat list into consecutive chunks of `m`
elements; the fuel is an upper bound on the number of chunks. -/
def chunksAux {α : Type} (fuel m : Nat) (l : List α) : List (List α) :=
  match fuel, l with
  | 0, _ => []
  | _ + 1, [] => []
  | fuel + 1, x :: xs => ((x :: xs).take m) :: chunksAux fuel m ((x :: xs).drop m)

/-- Row-major splitting of a flat list into rows of `m` elements. -/
def chunks {α : Type} (m : Nat) (l : List α) : List (List α) :=
  chunksAux l.length m l

theorem chunksAux_nil {α : Type} (fuel m : Nat) :
    chunksAux (α := α) fuel m [] = [] := by
  cases fuel <;> rfl

theorem chunksAux_cons {α : Type} (fuel m : Nat) (l : List α) (hl : l ≠ []) :
    chunksAux (fuel + 1) m l = l.take m :: chunksAux fuel m (l.drop m) := by
  cases l with
  | nil => exact absurd rfl hl
  | cons x xs => rfl

theorem chunksAux_flatten {α : Type} (m : Nat) (hm : 0 < m)
    (x : List (List α)) : ∀ (fuel : Nat), (∀ r ∈ x, r.length = m) →
      x.flatten.length ≤ fuel → chunksAux fuel m x.flatten = x := by
  induction x with
  | nil =>
    intro fuel _ _
    exact chunksAux_nil fuel m
  | cons r rs ih =>
    intro fuel hwf hfuel
    have hr : r.length = m := hwf r (List.mem_cons_self _ _)
    rw [List.flatten_cons] at hfuel ⊢
    have hne : r ++ rs.flatten ≠ [] := by
      intro h
      have := congrArg List.length h
      simp [hr] at this
      omega
    cases fuel with
    | zero =>
      exfalso
      have hpos : 0 < (r ++ rs.flatten).length := by
        simp [hr]
        omega
      omega
    | succ f =>
      rw [chunksAux_cons f m _ hne, List.take_left' hr, List.drop_left' hr]
      congr 1
      refine ih f (fun q hq => hwf q (List.mem_cons_of_mem _ hq)) ?_
      have : (r ++ rs.flatten).length = m + rs.flatten.length := by simp [hr]
      omega

theorem chunks_flatten {α : Type} (m : Nat) (hm : 0 < m) (x : List (List α))
    (hwf : ∀ r ∈ x, r.length = m) : chunks m x.flatten = x :=
  chunksAux_flatten m hm x _ hwf (Nat.le_refl _)

/-- numpy `xs.reshape((r, c))`: succeeds exactly when the total size matches,
splitting row-major. -/
def npReshape2 {α : Type} (r c : Nat) (xs : List α) :
    Option (List (List α)) :=
  if xs.length = r * c then some (chunks c xs) else none

/-- numpy `xs.reshape((b, n, m))` in row-major order. -/
def npReshape3 {α : Type} (b n m : Nat) (xs : List α) :
    Option (List (List (List α))) :=
  if xs.length = b * n * m then some (chunks n (chunks m xs)) else none

/-- The default control-point value passed to `add_spline`: numpy dynamic
typing collapsed to the shapes the component handles (`None`, a 1-D array, a
2-D array). -/
inductive CpDefault (α : Type) where
  | absent
  | oneD (xs : List α)
  | twoD (xss : List (List α))

/-- Normalization of the default control-point values in `SplineComp.setup`
(spline_comp.py lines 126-132): `None` becomes `np.ones((vec_size, n_cp))`; a
sub-2-D array is `reshape`d to `(vec_size, n_cp)` (numpy raises `ValueError`
when the total size differs); a 2-D array is registered as passed. -/
def resolveCpDefault {α : Type} [One α] (vec_size n_cp : Nat) :
    CpDefault α → Option (List (List α))
  | .absent => some (List.replicate vec_size (List.replicate n_cp 1))
  | .oneD xs => npReshape2 vec_size n_cp xs
  | .twoD xss => some xss

/-- C8 counterexample: with batch size `B = 2` and `n_cp = 3`, a 1-D default of
shape `(n_cp,)` is rejected (numpy cannot reshape 3 elements to `(2, 3)`), so
the claim that such a default is accepted and normalized for every positive
batch size is false on the code. -/
theorem C8_counterexample :
    resolveCpDefault (α := Int) 2 3 (CpDefault.oneD [1, 2, 3]) = none := by
  decide

/-- C8 amended: an absent default becomes the all-ones `(B, n_cp)` array; a
1-D default is accepted iff its total length is `B * n_cp`, in which case it is
reshaped row-major to `(B, n_cp)` — so a `(n_cp,)`-shaped default is normalized
exactly when `B = 1`, and is rejected otherwise. -/
theorem C8_cp_default_amended (B m : Nat) (xs : List Int) :
    resolveCpDefault (α := Int) B m CpDefault.absent =
      some (List.replicate B (List.replicate m 1)) ∧
    (xs.length = B * m →
      resolveCpDefault B m (CpDefault.oneD xs) = some (chunks m xs)) ∧
    (xs.length ≠ B * m →
      resolveCpDefault B m (CpDefault.oneD xs) = none) ∧
    (0 < m → xs.length = m →
      resolveCpDefault 1 m (CpDefault.oneD xs) = some [xs]) := by
  refine ⟨rfl, ?_, ?_, ?_⟩
  · intro h
    simp [resolveCpDefault, npReshape2, h]
  · intro h
    simp [resolveCpDefault, npReshape2, h]
  · intro hm h
    have hlen : xs.length = 1 * m := by omega
    have hx : chunks m xs = [xs] := by
      have := chunks_flatten m hm [xs] (by simp [h])
      simpa using this
    simp [resolveCpDefault, npReshape2, hlen, hx]

theorem C8_cp_default_amended_witness :
    resolveCpDefault (α := Int) 1 2 CpDefault.absent =
      some (List.replicate 1 (List.replicate 2 1)) ∧
    resolveCpDefault 1 2 (CpDefault.oneD [(5 : Int), 6]) = some [[5, 6]] :=
  ⟨(C8_cp_default_amended 1 2 [(5 : Int), 6]).1,
    (C8_cp_default_amended 1 2 [(5 : Int), 6]).2.2.2 (by decide) (by decide)⟩

/-- A single-quote character, used by the source message format around the
output name. -/
def squote : String := String.singleton (Char.ofNat 39)

/-- The wrapped message built at spline_comp.py lines 176-177:
`"{}: Error interpolating output '{}':\n{}".format(msginfo, out_name, err)`. -/
def interpErrorMsg (msginfo out_name err : String) : String :=
  msginfo ++ ": Error interpolating output " ++ squote ++ out_name ++ squote ++
    ":" ++ "\n" ++ err

/-- The loop body of `SplineComp.compute` (spline_comp.py lines 166-177): each
output evaluates its engine once; an `Except.ok` is written to the output, an
`Except.error` (the engine `ValueError`) aborts the call immediately with the
wrapped message — later splines are not evaluated, nothing is retried and no
default value is substituted. -/
def computeSplines {β : Type} (msginfo : String)
    (interps : List (String × (Unit → Except String β))) :
    Except String (List (String × β)) :=
  match interps with
  | [] => .ok []
  | (out_name, ev) :: rest =>
    match ev () with
    | .ok v =>
      match computeSplines msginfo rest with
      | .ok t => .ok ((out_name, v) :: t)
      | .error e => .error e
    | .error err => .error (interpErrorMsg msginfo out_name err)

theorem interpErrorMsg_data (msginfo out_name err : String) :
    (interpErrorMsg msginfo out_name err).data =
      (msginfo ++ ": Error interpolating output " ++ squote).data ++
        out_name.data ++ ((squote ++ ":" ++ "\n").data ++ err.data) := by
  simp [interpErrorMsg, String.data_append, List.append_assoc]

/-- C6: when the engine evaluation of a registered output fails with a
`ValueError` (and the outputs before it evaluate cleanly), the whole compute
call terminates with exactly the wrapped error, whose message contains the
failing output's name and ends with the original message; no `.ok` result (and
hence no substituted default) is produced. -/
theorem C6_eval_error_wrapped {β : Type} (msginfo name err : String)
    (k : Unit → Except String β)
    (pre post : List (String × (Unit → Except String β)))
    (hk : k () = .error err)
    (hpre : ∀ p ∈ pre, ∃ v, p.snd () = Except.ok v) :
    computeSplines msginfo (pre ++ (name, k) :: post) =
      .error (interpErrorMsg msginfo name err) ∧
    List.IsInfix name.data (interpErrorMsg msginfo name err).data ∧
    List.IsSuffix err.data (interpErrorMsg msginfo name err).data := by
  refine ⟨?_, ?_, ?_⟩
  · induction pre with
    | nil => simp [computeSplines, hk]
    | cons p ps ih =>
      obtain ⟨pn, pf⟩ := p
      obtain ⟨v, hv⟩ := hpre (pn, pf) (List.mem_cons_self _ _)
      have ih' := ih (fun q hq => hpre q (List.mem_cons_of_mem _ hq))
      simp only [List.cons_append, computeSplines] at hv ⊢
      rw [hv]
      simp only [List.append_eq]
      rw [ih']
  · exact ⟨(msginfo ++ ": Error interpolating output " ++ squote).data,
      (squote ++ ":" ++ "\n").data ++ err.data,
      (interpErrorMsg_data msginfo name err).symm ▸ by
        simp [List.append_assoc]⟩
  · exact ⟨(msginfo ++ ": Error interpolating output " ++ squote).data ++
      name.data ++ (squote ++ ":" ++ "\n").data, by
        rw [interpErrorMsg_data]
        simp [List.append_assoc]⟩

theorem C6_eval_error_wrapped_witness :
    computeSplines "comp"
      [("y", fun _ => (Except.error "boom" : Except String Nat))] =
      .error (interpErrorMsg "comp" "y" "boom") ∧
    List.IsInfix "y".data (interpErrorMsg "comp" "y" "boom").data ∧
    List.IsSuffix "boom".data (interpErrorMsg "comp" "y" "boom").data :=
  C6_eval_error_wrapped "comp" "y" "boom"
    (fun _ => (Except.error "boom" : Except String Nat)) [] [] rfl (by simp)

/-- The batched derivative representation the engine may leave in
`interp._d_dvalues`: a rank-3 ndarray (one `(n_interp, n_cp)` matrix per batch
row, the akima family) or a rank-2 scipy sparse matrix (batch-invariant, the
bsplines family). -/
inductive DDvals (α : Type) where
  | dense3 (d : List (List (List α)))
  | sparse2 (d : List (List α))

/-- `d_dvalues.shape[0]`. -/
def DDvals.shape0 {α : Type} : DDvals α → Nat
  | .dense3 d => d.length
  | .sparse2 d => d.length

/-- `d_dvalues.toarray()`: only the scipy sparse matrix has this attribute; on
an ndarray the call raises `AttributeError`. -/
def DDvals.toarray {α : Type} : DDvals α → Option (List (List α))
  | .dense3 _ => none
  | .sparse2 d => some d

/-- The `(len, rows, cols)` shape of a rank-3 nested list (numpy arrays are
rectangular, so the head row is representative). -/
def shape3 {α : Type} (d : List (List (List α))) : Nat × Nat × Nat :=
  (d.length, (d.headD []).length, ((d.headD []).headD []).length)

/-- numpy broadcast indexing: a size-1 source axis always reads index 0. -/
def bcastIdx (srcDim i : Nat) : Nat := if srcDim = 1 then 0 else i

/-- `dy_ddata[:] = d_dvalues` for `dy_ddata = np.zeros((B, n, m))` and a rank-3
source whose leading axis already equals `B` (spline_comp.py lines 203-207):
numpy silently broadcasts size-1 trailing axes and raises `ValueError` on any
other shape mismatch. -/
def npAssign3 {α : Type} [Inhabited α] (B n m : Nat)
    (d : List (List (List α))) : Option (List (List (List α))) :=
  let n2 := (d.headD []).length
  let m2 := ((d.headD []).headD []).length
  if (n2 = n ∨ n2 = 1) ∧ (m2 = m ∨ m2 = 1) then
    some ((List.range B).map (fun b => (List.range n).map (fun k =>
      (List.range m).map (fun j =>
        ((d.getD b []).getD (bcastIdx n2 k) []).getD (bcastIdx m2 j) default))))
  else none

/-- `np.broadcast_to(d2, (B, n, m))` for a rank-2 `d2` (spline_comp.py line
210): replicates one broadcast `(n, m)` block across the batch axis, raising on
a non-broadcastable shape. -/
def npBroadcastTo3 {α : Type} [Inhabited α] (B n m : Nat)
    (d : List (List α)) : Option (List (List (List α))) :=
  let n2 := d.length
  let m2 := (d.headD []).length
  if (n2 = n ∨ n2 = 1) ∧ (m2 = m ∨ m2 = 1) then
    some (List.replicate B ((List.range n).map (fun k =>
      (List.range m).map (fun j =>
        (d.getD (bcastIdx n2 k) []).getD (bcastIdx m2 j) default))))
  else none

/-- The `d_dvalues is None` fallback block of `compute_partials`
(spline_comp.py lines 212-218): `dy_ddata = np.zeros((n_interp, n_cp))`, then
one row assignment `dy_ddata[k, :] = interp.training_gradients(x_interp[k:k+1])`
per interpolated point, with numpy row broadcasting. -/
def trainingGradientsBlock {α : Type} [Inhabited α] (n m : Nat)
    (tg : Nat → List α) : Option (List (List α)) :=
  if ∀ k ∈ List.range n, ((tg k).length = m ∨ (tg k).length = 1) then
    some ((List.range n).map (fun k => (List.range m).map (fun j =>
      (tg k).getD (bcastIdx (tg k).length j) default)))
  else none

/-- The per-spline body of `SplineComp.compute_partials` (spline_comp.py lines
201-219) up to the final flatten: produce the `(vec_size, n_interp, n_cp)`
array `dy_ddata` from whichever derivative source the engine left behind. -/
def assembleDyDdata {α : Type} [Inhabited α] (B n m : Nat)
    (dd : Option (DDvals α)) (tg : Nat → List α) :
    Option (List (List (List α))) :=
  match dd with
  | some dv =>
    if dv.shape0 = B then
      match dv with
      | .dense3 d => npAssign3 B n m d
      | .sparse2 _ => none
    else
      (dv.toarray).bind (npBroadcastTo3 B n m)
  | none =>
    (trainingGradientsBlock n m tg).map (List.replicate B)

/-- numpy `.flatten()` of a rank-3 array in row-major (C) order. -/
def flatten3 {α : Type} (a : List (List (List α))) : List α :=
  a.flatten.flatten

/-- `partials[out_name, cp_name] = dy_ddata.flatten()` (spline_comp.py line
221): the flat value array handed to the host for the declared sparsity
pattern. -/
def computePartialsSpline {α : Type} [Inhabited α] (B n m : Nat)
    (dd : Option (DDvals α)) (tg : Nat → List α) : Option (List α) :=
  (assembleDyDdata B n m dd tg).map flatten3

/-- Rectangular `(B, n, m)` shape of a nested-list array. -/
def wf3 {α : Type} (B n m : Nat) (a : List (List (List α))) : Prop :=
  a.length = B ∧ ∀ blk ∈ a, blk.length = n ∧ ∀ r ∈ blk, r.length = m

theorem wf3_rangeBuild {α : Type} (B n m : Nat) (f : Nat → Nat → Nat → α) :
    wf3 B n m ((List.range B).map (fun b => (List.range n).map (fun k =>
      (List.range m).map (fun j => f b k j)))) := by
  refine ⟨by simp, ?_⟩
  intro blk hblk
  rw [List.mem_map] at hblk
  obtain ⟨b, _, rfl⟩ := hblk
  refine ⟨by simp, ?_⟩
  intro r hr
  rw [List.mem_map] at hr
  obtain ⟨k, _, rfl⟩ := hr
  simp

theorem wf3_replicate {α : Type} (B n m : Nat) (blk : List (List α))
    (h1 : blk.length = n) (h2 : ∀ r ∈ blk, r.length = m) :
    wf3 B n m (List.replicate B blk) := by
  refine ⟨by simp, ?_⟩
  intro b hb
  rw [List.eq_of_mem_replicate hb]
  exact ⟨h1, h2⟩


theorem npAssign3_some {α : Type} [Inhabited α] (B n m : Nat)
    (d a : List (List (List α))) (h : npAssign3 B n m d = some a) :
    a = (List.range B).map (fun b => (List.range n).map (fun k =>
      (List.range m).map (fun j =>
        ((d.getD b []).getD (bcastIdx (d.headD []).length k) []).getD
          (bcastIdx ((d.headD []).headD []).length j) default))) := by
  simp only [npAssign3] at h
  split at h
  · exact (Option.some_inj.mp h).symm
  · exact absurd h (by simp)

theorem npBroadcastTo3_some {α : Type} [Inhabited α] (B n m : Nat)
    (d : List (List α)) (a : List (List (List α)))
    (h : npBroadcastTo3 B n m d = some a) :
    a = List.replicate B ((List.range n).map (fun k =>
      (List.range m).map (fun j =>
        (d.getD (bcastIdx d.length k) []).getD
          (bcastIdx (d.headD []).length j) default))) := by
  simp only [npBroadcastTo3] at h
  split at h
  · exact (Option.some_inj.mp h).symm
  · exact absurd h (by simp)

theorem trainingGradientsBlock_some {α : Type} [Inhabited α] (n m : Nat)
    (tg : Nat → List α) (d2 : List (List α))
    (h : trainingGradientsBlock n m tg = some d2) :
    d2 = (List.range n).map (fun k => (List.range m).map (fun j =>
      (tg k).getD (bcastIdx (tg k).length j) default)) := by
  simp only [trainingGradientsBlock] at h
  split at h
  · exact (Option.some_inj.mp h).symm
  · exact absurd h (by simp)

theorem assembleDyDdata_wf3 {α : Type} [Inhabited α] (B n m : Nat)
    (dd : Option (DDvals α)) (tg : Nat → List α) (a : List (List (List α)))
    (ha : assembleDyDdata B n m dd tg = some a) : wf3 B n m a := by
  cases dd with
  | none =>
    simp only [assembleDyDdata, Option.map_eq_some'] at ha
    obtain ⟨d2, hd2, rfl⟩ := ha
    rw [trainingGradientsBlock_some n m tg d2 hd2]
    refine wf3_replicate B n m _ (by simp) ?_
    intro r hr
    rw [List.mem_map] at hr
    obtain ⟨k, _, rfl⟩ := hr
    simp
  | some dv =>
    cases dv with
    | dense3 d =>
      simp only [assembleDyDdata, DDvals.shape0, DDvals.toarray,
        Option.none_bind] at ha
      split at ha
      · rw [npAssign3_some B n m d a ha]
        exact wf3_rangeBuild B n m _
      · exact absurd ha (by simp)
    | sparse2 d =>
      simp only [assembleDyDdata, DDvals.shape0, DDvals.toarray,
        Option.some_bind] at ha
      split at ha
      · exact absurd ha (by simp)
      · rw [npBroadcastTo3_some B n m d a ha]
        refine wf3_replicate B n m _ (by simp) ?_
        intro r hr
        rw [List.mem_map] at hr
        obtain ⟨k, _, rfl⟩ := hr
        simp

theorem flatten_getD {α : Type} (m : Nat) (x : List (List α)) (d : α) :
    ∀ (k j : Nat), (∀ r ∈ x, r.length = m) → k < x.length → j < m →
      x.flatten.getD (k * m + j) d = (x.getD k []).getD j d := by
  induction x with
  | nil =>
    intro k j _ hk _
    simp at hk
  | cons r rs ih =>
    intro k j hwf hk hj
    have hr : r.length = m := hwf r (List.mem_cons_self _ _)
    cases k with
    | zero =>
      rw [List.flatten_cons, Nat.zero_mul, Nat.zero_add,
        List.getD_append _ _ _ _ (by rw [hr]; exact hj)]
      rfl
    | succ k =>
      rw [List.flatten_cons]
      have hlen : r.length ≤ (k + 1) * m + j := by
        rw [hr, Nat.succ_mul]
        omega
      rw [List.getD_append_right _ _ _ _ hlen]
      have hidx : (k + 1) * m + j - r.length = k * m + j := by
        rw [hr, Nat.succ_mul]
        omega
      have hk' : k < rs.length := by simpa using hk
      rw [hidx, ih k j (fun q hq => hwf q (List.mem_cons_of_mem _ hq)) hk' hj]
      rfl

theorem flatten_length_const {α : Type} (x : List (List α)) (m : Nat)
    (h : ∀ r ∈ x, r.length = m) : x.flatten.length = x.length * m := by
  induction x with
  | nil => simp
  | cons r rs ih =>
    rw [List.flatten_cons, List.length_append, h r (List.mem_cons_self _ _),
      ih (fun q hq => h q (List.mem_cons_of_mem _ hq)), List.length_cons]
    ring

theorem wf3_flatten_rows {α : Type} (B n m : Nat) (a : List (List (List α)))
    (hwf : wf3 B n m a) : ∀ r ∈ a.flatten, r.length = m := by
  intro r hr
  rw [List.mem_flatten] at hr
  obtain ⟨blk, hb, hr'⟩ := hr
  exact (hwf.2 blk hb).2 r hr'

theorem wf3_flatten_length {α : Type} (B n m : Nat) (a : List (List (List α)))
    (hwf : wf3 B n m a) : a.flatten.length = B * n := by
  rw [flatten_length_const a n (fun blk hb => (hwf.2 blk hb).1), hwf.1]

theorem flatten3_length {α : Type} (B n m : Nat) (a : List (List (List α)))
    (hwf : wf3 B n m a) : (flatten3 a).length = B * n * m := by
  rw [flatten3, flatten_length_const _ m (wf3_flatten_rows B n m a hwf),
    wf3_flatten_length B n m a hwf]

theorem reshape3_flatten3 {α : Type} (B n m : Nat) (hn : 0 < n) (hm : 0 < m)
    (a : List (List (List α))) (hwf : wf3 B n m a) :
    npReshape3 B n m (flatten3 a) = some a := by
  rw [npReshape3, if_pos (flatten3_length B n m a hwf)]
  congr 1
  rw [flatten3, chunks_flatten m hm a.flatten (wf3_flatten_rows B n m a hwf)]
  exact chunks_flatten n hn a (fun blk hb => (hwf.2 blk hb).1)

theorem flatten3_getD {α : Type} (B n m b k j : Nat) (d : α)
    (a : List (List (List α))) (hwf : wf3 B n m a)
    (hb : b < B) (hk : k < n) (hj : j < m) :
    (flatten3 a).getD (b * (n * m) + k * m + j) d =
      ((a.getD b []).getD k []).getD j d := by
  have hbk : b * n + k < a.flatten.length := by
    rw [wf3_flatten_length B n m a hwf]
    calc b * n + k < (b + 1) * n := by rw [Nat.succ_mul]; omega
    _ ≤ B * n := Nat.mul_le_mul_right n hb
  have hidx : b * (n * m) + k * m + j = (b * n + k) * m + j := by ring
  rw [flatten3, hidx,
    flatten_getD m a.flatten d (b * n + k) j (wf3_flatten_rows B n m a hwf) hbk hj]
  congr 1
  exact flatten_getD n a [] b k (fun blk hb' => (hwf.2 blk hb').1)
    (by rw [hwf.1]; exact hb) hk

/-- C4: for every accepted derivative source, the flat array handed to the
host is the row-major flattening of the assembled
`(vec_size, n_interp, n_cp)` array `dy_ddata`: reshaping that flat array back
to `(vec_size, n_interp, n_cp)` row-major reproduces the assembled array
exactly, and the flat element at position
`b * (n_interp * n_cp) + k * n_cp + j` is assembled entry `(b, k, j)` while
the declared sparsity pattern places that same position at row
`b * n_interp + k` and column `b * n_cp + j`. -/
theorem C4_partials_flatten_roundtrip (α : Type) [Inhabited α]
    (B n m b k j : Nat) (dd : Option (DDvals α)) (tg : Nat → List α)
    (a : List (List (List α))) (hn : 0 < n) (hm : 0 < m)
    (ha : assembleDyDdata B n m dd tg = some a)
    (hb : b < B) (hk : k < n) (hj : j < m) :
    computePartialsSpline B n m dd tg = some (flatten3 a) ∧
    npReshape3 B n m (flatten3 a) = some a ∧
    (flatten3 a).getD (b * (n * m) + k * m + j) default =
      ((a.getD b []).getD k []).getD j default ∧
    (rowsArr B n m).getD (b * (n * m) + k * m + j) 0 = b * n + k ∧
    (colsArr B n m).getD (b * (n * m) + k * m + j) 0 = b * m + j := by
  have hwf := assembleDyDdata_wf3 B n m dd tg a ha
  refine ⟨?_, reshape3_flatten3 B n m hn hm a hwf,
    flatten3_getD B n m b k j default a hwf hb hk hj,
    rowsArr_getD B n m b k j hb hk hj, colsArr_getD B n m b k j hb hk hj⟩
  rw [computePartialsSpline, ha, Option.map_some']

theorem C4_partials_flatten_roundtrip_witness :
    computePartialsSpline 2 1 2
      (some (DDvals.dense3 [[[(1 : Int), 2]], [[3, 4]]])) (fun _ => []) =
      some (flatten3 [[[(1 : Int), 2]], [[3, 4]]]) ∧
    npReshape3 2 1 2 (flatten3 [[[(1 : Int), 2]], [[3, 4]]]) =
      some [[[(1 : Int), 2]], [[3, 4]]] ∧
    (flatten3 [[[(1 : Int), 2]], [[3, 4]]]).getD (1 * (1 * 2) + 0 * 2 + 1)
      default =
      (([[[(1 : Int), 2]], [[3, 4]]].getD 1 []).getD 0 []).getD 1 default ∧
    (rowsArr 2 1 2).getD (1 * (1 * 2) + 0 * 2 + 1) 0 = 1 * 1 + 0 ∧
    (colsArr 2 1 2).getD (1 * (1 * 2) + 0 * 2 + 1) 0 = 1 * 2 + 1 :=
  C4_partials_flatten_roundtrip Int 2 1 2 1 0 1
    (some (DDvals.dense3 [[[(1 : Int), 2]], [[3, 4]]])) (fun _ => [])
    [[[(1 : Int), 2]], [[3, 4]]] (by decide) (by decide) (by decide)
    (by decide) (by decide) (by decide)

theorem getD_replicate_eq {α : Type} (N i : Nat) (x d : α) (h : i < N) :
    (List.replicate N x).getD i d = x := by
  rw [List.getD_eq_getElem _ _ (by simpa using h)]
  simp

/-- C5: whenever the engine reports a batch-invariant derivative — a single
rank-2 matrix whose leading dimension differs from `vec_size`, or no batched
derivative at all so that per-point `training_gradients` queries are used —
all `vec_size` batch blocks of the assembled `(vec_size, n_interp, n_cp)`
array are identical: the single block is replicated, not recomputed, across
the batch dimension. -/
theorem C5_batch_invariant_broadcast (α : Type) [Inhabited α] (B n m : Nat)
    (dd : Option (DDvals α)) (tg : Nat → List α) (a : List (List (List α)))
    (b b' : Nat)
    (hcase : (∃ d2, dd = some (DDvals.sparse2 d2) ∧ d2.length ≠ B) ∨ dd = none)
    (ha : assembleDyDdata B n m dd tg = some a)
    (hb : b < B) (hb' : b' < B) :
    a.getD b [] = a.getD b' [] := by
  rcases hcase with ⟨d2, rfl, hd2⟩ | rfl
  · simp only [assembleDyDdata, DDvals.shape0, DDvals.toarray,
      Option.some_bind] at ha
    rw [if_neg hd2] at ha
    rw [npBroadcastTo3_some B n m d2 a ha,
      getD_replicate_eq B b _ _ hb, getD_replicate_eq B b' _ _ hb']
  · simp only [assembleDyDdata, Option.map_eq_some'] at ha
    obtain ⟨blk, _, rfl⟩ := ha
    rw [getD_replicate_eq B b _ _ hb, getD_replicate_eq B b' _ _ hb']

theorem C5_batch_invariant_broadcast_witness :
    ([[[(5 : Int), 6]], [[5, 6]]] : List (List (List Int))).getD 0 [] =
      ([[[(5 : Int), 6]], [[5, 6]]] : List (List (List Int))).getD 1 [] :=
  C5_batch_invariant_broadcast Int 2 1 2
    (some (DDvals.sparse2 [[(5 : Int), 6]])) (fun _ => [])
    [[[(5 : Int), 6]], [[5, 6]]] 0 1
    (Or.inl ⟨[[(5 : Int), 6]], rfl, by decide⟩) (by decide) (by decide)
    (by decide)

/-- C9 counterexample: an engine derivative of shape `(2, 1, 1)` where
`(vec_size, n_interp, n_cp) = (2, 1, 3)` is expected is not rejected: the
assignment `dy_ddata[:] = d_dvalues` silently broadcasts the size-1 trailing
axis, so assembly succeeds with the coerced array instead of aborting with an
internal-consistency error. -/
theorem C9_counterexample :
    shape3 [[[(7 : Int)]], [[8]]] ≠ (2, 1, 3) ∧
    assembleDyDdata 2 1 3 (some (DDvals.dense3 [[[(7 : Int)]], [[8]]]))
      (fun _ => []) = some [[[7, 7, 7]], [[8, 8, 8]]] := by
  decide

/-- C9 amended: a rank-3 engine derivative whose trailing axes are
broadcast-incompatible with `(n_interp, n_cp)` (neither equal nor of size 1)
makes the assembly fail with the array library's broadcasting error, which
carries no spline identification; broadcast-compatible shape mismatches
(size-1 axes) are silently coerced rather than rejected. -/
theorem C9_shape_mismatch_amended (α : Type) [Inhabited α] (B n m : Nat)
    (d : List (List (List α))) (tg : Nat → List α) (h0 : d.length = B)
    (hbad : ¬ (((d.headD []).length = n ∨ (d.headD []).length = 1) ∧
      (((d.headD []).headD []).length = m ∨
        ((d.headD []).headD []).length = 1))) :
    assembleDyDdata B n m (some (DDvals.dense3 d)) tg = none := by
  unfold assembleDyDdata
  simp only [DDvals.shape0]
  rw [if_pos h0]
  simp only [npAssign3]
  rw [if_neg hbad]

theorem C9_shape_mismatch_amended_witness :
    assembleDyDdata 1 2 2 (some (DDvals.dense3 [[[(1 : Int), 2, 3]]]))
      (fun _ => []) = none :=
  C9_shape_mismatch_amended Int 1 2 2 [[[(1 : Int), 2, 3]]] (fun _ => [])
    (by decide) (by decide)
